import Mathlib

/-!
Verification of the supply-equilibrium projection, alarm-dialog state machine,
and alarm-preference persistence of the `frontend` dashboard repository.

The numeric code is embedded over `ℚ` (idealised exact arithmetic for the
JavaScript number operations actually performed: `+`, `-`, `*`, `/`,
`Math.trunc`, `Math.floor`, `Math.sqrt` under a floor), and calendar
arithmetic (`date-fns` `fromUnixTime` / `addYears` / `getUnixTime` /
`getMonth` over the proleptic Gregorian calendar of JS `Date`, with local
time taken as UTC) is embedded over `ℤ` seconds.
-/

set_option maxHeartbeats 1600000

/-! ## Calendar model

`date-fns` works on JS `Date`, whose civil fields follow the proleptic
Gregorian calendar.  `civilFromDays` and `daysFromCivil` are the standard
era-based conversions between days-since-Unix-epoch and (year, month 1..12,
day) triples; `addYearsUnix` is `getUnixTime(addYears(fromUnixTime t, 1))`
(add one calendar year, clamping Feb 29 to Feb 28), and `getMonthUnix` is
`getMonth(fromUnixTime t)` (0-based month). -/

/-- Civil date (year, month 1..12, day 1..31) of a count of days since
1970-01-01 in the proleptic Gregorian calendar. -/
def civilFromDays (z : ℤ) : ℤ × ℤ × ℤ :=
  let z' := z + 719468
  let era := z' / 146097
  let doe := z' - era * 146097
  let yoe := (doe - doe / 1460 + doe / 36524 - doe / 146096) / 365
  let doy := doe - (365 * yoe + yoe / 4 - yoe / 100)
  let mp := (5 * doy + 2) / 153
  let d := doy - (153 * mp + 2) / 5 + 1
  let m := if mp < 10 then mp + 3 else mp - 9
  let y := yoe + era * 400
  (if m ≤ 2 then y + 1 else y, m, d)

/-- Days since 1970-01-01 of a proleptic Gregorian civil date. -/
def daysFromCivil (y m d : ℤ) : ℤ :=
  let y' := if m ≤ 2 then y - 1 else y
  let era := y' / 400
  let yoe := y' - era * 400
  let doy := (153 * (if 2 < m then m - 3 else m + 9) + 2) / 5 + d - 1
  let doe := yoe * 365 + yoe / 4 - yoe / 100 + doy
  era * 146097 + doe - 719468

/-- Gregorian leap-year predicate. -/
def isLeapYear (y : ℤ) : Prop := y % 4 = 0 ∧ (y % 100 ≠ 0 ∨ y % 400 = 0)

instance (y : ℤ) : Decidable (isLeapYear y) := by unfold isLeapYear; infer_instance

/-- Number of days in month `m` (1..12) of year `y`. -/
def daysInMonth (y m : ℤ) : ℤ :=
  if m = 2 then (if isLeapYear y then 29 else 28)
  else if m = 4 ∨ m = 6 ∨ m = 9 ∨ m = 11 then 30
  else 31

/-- `getUnixTime (addYears (fromUnixTime t) 1)`: add one calendar year to a
unix timestamp (seconds), clamping the day of month (Feb 29 → Feb 28) and
keeping the time of day, as `date-fns` `addYears` does. -/
def addYearsUnix (t : ℤ) : ℤ :=
  let days := t / 86400
  let secs := t % 86400
  let c := civilFromDays days
  daysFromCivil (c.1 + 1) c.2.1 (min c.2.2 (daysInMonth (c.1 + 1) c.2.1)) * 86400 + secs

/-- `getMonth (fromUnixTime t)`: the 0-based month of a unix timestamp. -/
def getMonthUnix (t : ℤ) : ℤ := (civilFromDays (t / 86400)).2.1 - 1

/-! Correctness of the year-of-era formula of `civilFromDays`, split into the
four centuries of a 400-year era. -/

theorem yoe_block0 (doe e b : ℤ) (h0 : 0 ≤ doe) (h1 : doe ≤ 36523)
    (he : e = doe / 1460) (hb : b = (doe - e) / 365) :
    0 ≤ b ∧ b ≤ 399 ∧
    365 * b + b / 4 - b / 100 ≤ doe ∧
    doe < 365 * (b + 1) + (b + 1) / 4 - (b + 1) / 100 + (b + 1) / 400 := by
  have hb0 : 0 ≤ b := by omega
  have hb1 : b ≤ 100 := by omega
  interval_cases b <;> omega

theorem yoe_block1 (doe e b : ℤ) (h0 : 36524 ≤ doe) (h1 : doe ≤ 73047)
    (he : e = doe / 1460) (hb : b = (doe - e + 1) / 365) :
    0 ≤ b ∧ b ≤ 399 ∧
    365 * b + b / 4 - b / 100 ≤ doe ∧
    doe < 365 * (b + 1) + (b + 1) / 4 - (b + 1) / 100 + (b + 1) / 400 := by
  have hb0 : 100 ≤ b := by omega
  have hb1 : b ≤ 199 := by omega
  interval_cases b <;> omega

theorem yoe_block2 (doe e b : ℤ) (h0 : 73048 ≤ doe) (h1 : doe ≤ 109571)
    (he : e = doe / 1460) (hb : b = (doe - e + 2) / 365) :
    0 ≤ b ∧ b ≤ 399 ∧
    365 * b + b / 4 - b / 100 ≤ doe ∧
    doe < 365 * (b + 1) + (b + 1) / 4 - (b + 1) / 100 + (b + 1) / 400 := by
  have hb0 : 200 ≤ b := by omega
  have hb1 : b ≤ 299 := by omega
  interval_cases b <;> omega

theorem yoe_block3 (doe e b : ℤ) (h0 : 109572 ≤ doe) (h1 : doe ≤ 146095)
    (he : e = doe / 1460) (hb : b = (doe - e + 3) / 365) :
    0 ≤ b ∧ b ≤ 399 ∧
    365 * b + b / 4 - b / 100 ≤ doe ∧
    doe < 365 * (b + 1) + (b + 1) / 4 - (b + 1) / 100 + (b + 1) / 400 := by
  have hb0 : 300 ≤ b := by omega
  have hb1 : b ≤ 399 := by omega
  interval_cases b <;> omega

/-- The year-of-era formula used by `civilFromDays` picks the year of era
(0..399) whose day range contains `doe`. -/
theorem yoe_spec (doe : ℤ) (h0 : 0 ≤ doe) (h1 : doe ≤ 146096) :
    0 ≤ (doe - doe / 1460 + doe / 36524 - doe / 146096) / 365 ∧
    (doe - doe / 1460 + doe / 36524 - doe / 146096) / 365 ≤ 399 ∧
    365 * ((doe - doe / 1460 + doe / 36524 - doe / 146096) / 365) +
      ((doe - doe / 1460 + doe / 36524 - doe / 146096) / 365) / 4 -
      ((doe - doe / 1460 + doe / 36524 - doe / 146096) / 365) / 100 ≤ doe ∧
    doe < 365 * ((doe - doe / 1460 + doe / 36524 - doe / 146096) / 365 + 1) +
      ((doe - doe / 1460 + doe / 36524 - doe / 146096) / 365 + 1) / 4 -
      ((doe - doe / 1460 + doe / 36524 - doe / 146096) / 365 + 1) / 100 +
      ((doe - doe / 1460 + doe / 36524 - doe / 146096) / 365 + 1) / 400 := by
  rcases (by omega :
      (0 ≤ doe ∧ doe ≤ 36523) ∨ (36524 ≤ doe ∧ doe ≤ 73047) ∨
      (73048 ≤ doe ∧ doe ≤ 109571) ∨ (109572 ≤ doe ∧ doe ≤ 146095) ∨ doe = 146096) with
    h | h | h | h | h
  · have hf : doe / 36524 = 0 := by omega
    have hg : doe / 146096 = 0 := by omega
    rw [hf, hg]
    have harg : doe - doe / 1460 + 0 - 0 = doe - doe / 1460 := by ring
    rw [harg]
    exact yoe_block0 doe (doe / 1460) _ h.1 h.2 rfl rfl
  · have hf : doe / 36524 = 1 := by omega
    have hg : doe / 146096 = 0 := by omega
    rw [hf, hg]
    have harg : doe - doe / 1460 + 1 - 0 = doe - doe / 1460 + 1 := by ring
    rw [harg]
    exact yoe_block1 doe (doe / 1460) _ h.1 h.2 rfl rfl
  · have hf : doe / 36524 = 2 := by omega
    have hg : doe / 146096 = 0 := by omega
    rw [hf, hg]
    have harg : doe - doe / 1460 + 2 - 0 = doe - doe / 1460 + 2 := by ring
    rw [harg]
    exact yoe_block2 doe (doe / 1460) _ h.1 h.2 rfl rfl
  · have hf : doe / 36524 = 3 := by omega
    have hg : doe / 146096 = 0 := by omega
    rw [hf, hg]
    have harg : doe - doe / 1460 + 3 - 0 = doe - doe / 1460 + 3 := by ring
    rw [harg]
    exact yoe_block3 doe (doe / 1460) _ h.1 h.2 rfl rfl
  · subst h
    omega

/-- Core of the conversion round trip, stated over the abstract intermediate
values of `civilFromDays`. -/
theorem roundtrip_core (era doe yoe doy mp m y d : ℤ)
    (hdoe : 0 ≤ doe ∧ doe ≤ 146096)
    (hyoe0 : 0 ≤ yoe) (hyoe1 : yoe ≤ 399)
    (hys : 365 * yoe + yoe / 4 - yoe / 100 ≤ doe)
    (hys2 : doe < 365 * (yoe + 1) + (yoe + 1) / 4 - (yoe + 1) / 100 + (yoe + 1) / 400)
    (hdoy : doy = doe - (365 * yoe + yoe / 4 - yoe / 100))
    (hmp : mp = (5 * doy + 2) / 153)
    (hd : d = doy - (153 * mp + 2) / 5 + 1)
    (hm : m = if mp < 10 then mp + 3 else mp - 9)
    (hy : y = if m ≤ 2 then yoe + era * 400 + 1 else yoe + era * 400) :
    daysFromCivil y m d = era * 146097 + doe - 719468 := by
  have hdoy0 : 0 ≤ doy := by omega
  have hdoy1 : doy ≤ 365 := by
    clear hd hmp hm hy
    omega
  have hmpb : 0 ≤ mp ∧ mp ≤ 11 := by
    clear hd hm hy hys hys2
    omega
  by_cases h10 : mp < 10
  · rw [if_pos h10] at hm
    have hm2 : ¬ m ≤ 2 := by omega
    rw [if_neg hm2] at hy
    subst hm hy
    simp only [daysFromCivil]
    have h33 : mp + 3 - 3 = mp := by ring
    have hdv : (yoe + era * 400) / 400 = era := by omega
    rw [if_neg hm2, if_pos (by omega : (2:ℤ) < mp + 3), h33, hdv,
      show yoe + era * 400 - era * 400 = yoe from by ring]
    omega
  · rw [if_neg h10] at hm
    have hm2 : m ≤ 2 := by omega
    rw [if_pos hm2] at hy
    subst hm hy
    simp only [daysFromCivil]
    have h99 : mp - 9 + 9 = mp := by ring
    have hdv : (yoe + era * 400 + 1 - 1) / 400 = era := by omega
    rw [if_pos hm2, if_neg (by omega : ¬ (2:ℤ) < mp - 9), h99, hdv,
      show yoe + era * 400 + 1 - 1 - era * 400 = yoe from by ring]
    omega

/-- Converting a day count to a civil date and back is the identity. -/
theorem daysFromCivil_civilFromDays (z : ℤ) :
    daysFromCivil (civilFromDays z).1 (civilFromDays z).2.1 (civilFromDays z).2.2 = z := by
  have h0 : 0 ≤ z + 719468 - (z + 719468) / 146097 * 146097 := by omega
  have h1 : z + 719468 - (z + 719468) / 146097 * 146097 ≤ 146096 := by omega
  have hy := yoe_spec _ h0 h1
  simp only [civilFromDays]
  exact Eq.trans
    (roundtrip_core ((z + 719468) / 146097)
      (z + 719468 - (z + 719468) / 146097 * 146097) _ _ _ _ _ _
      ⟨h0, h1⟩ hy.1 hy.2.1 hy.2.2.1 hy.2.2.2 rfl rfl rfl rfl rfl)
    (by ring)

/-- Core of date validity, stated over the abstract intermediate values of
`civilFromDays`. -/
theorem valid_core (era doe yoe doy mp m y d : ℤ)
    (hdoe : 0 ≤ doe ∧ doe ≤ 146096)
    (hyoe0 : 0 ≤ yoe) (hyoe1 : yoe ≤ 399)
    (hys : 365 * yoe + yoe / 4 - yoe / 100 ≤ doe)
    (hys2 : doe < 365 * (yoe + 1) + (yoe + 1) / 4 - (yoe + 1) / 100 + (yoe + 1) / 400)
    (hdoy : doy = doe - (365 * yoe + yoe / 4 - yoe / 100))
    (hmp : mp = (5 * doy + 2) / 153)
    (hd : d = doy - (153 * mp + 2) / 5 + 1)
    (hm : m = if mp < 10 then mp + 3 else mp - 9)
    (hy : y = if m ≤ 2 then yoe + era * 400 + 1 else yoe + era * 400) :
    1 ≤ m ∧ m ≤ 12 ∧ 1 ≤ d ∧ d ≤ daysInMonth y m := by
  have hdoy0 : 0 ≤ doy := by omega
  have hdoy1 : doy ≤ 365 := by
    clear hd hmp hm hy
    omega
  have hmpb0 : 0 ≤ mp := by
    clear hd hm hy hys hys2
    omega
  have hmpb1 : mp ≤ 11 := by
    clear hd hm hy hys hys2
    omega
  have h365 : doy = 365 →
      (yoe + 1) % 4 = 0 ∧ ((yoe + 1) % 100 ≠ 0 ∨ (yoe + 1) % 400 = 0) := by
    intro h
    clear hd hmp hm hy hmpb0 hmpb1
    by_cases h399 : yoe = 399
    · subst h399
      omega
    · have hg0 : (yoe + 1) / 400 = 0 := by omega
      constructor
      · by_contra h4
        have he : (yoe + 1) / 4 = yoe / 4 := by omega
        omega
      · by_cases h100 : (yoe + 1) % 100 = 0
        · exfalso
          have hf : (yoe + 1) / 100 = yoe / 100 + 1 := by omega
          have he2 : (yoe + 1) / 4 ≤ yoe / 4 + 1 := by omega
          omega
        · exact Or.inl h100
  subst hm
  subst hy
  subst hd
  interval_cases mp <;>
    simp only [daysInMonth, isLeapYear] <;>
    norm_num <;>
    omega

/-- `civilFromDays` produces a valid civil date. -/
theorem civilFromDays_valid (z : ℤ) :
    1 ≤ (civilFromDays z).2.1 ∧ (civilFromDays z).2.1 ≤ 12 ∧
    1 ≤ (civilFromDays z).2.2 ∧
    (civilFromDays z).2.2 ≤ daysInMonth (civilFromDays z).1 (civilFromDays z).2.1 := by
  have h0 : 0 ≤ z + 719468 - (z + 719468) / 146097 * 146097 := by omega
  have h1 : z + 719468 - (z + 719468) / 146097 * 146097 ≤ 146096 := by omega
  have hy := yoe_spec _ h0 h1
  simp only [civilFromDays]
  exact valid_core ((z + 719468) / 146097)
    (z + 719468 - (z + 719468) / 146097 * 146097) _ _ _ _ _ _
    ⟨h0, h1⟩ hy.1 hy.2.1 hy.2.2.1 hy.2.2.2 rfl rfl rfl rfl rfl

/-- Moving a valid civil date to the same (clamped) date one year later
advances the day count by at least 365 days. -/
theorem daysFromCivil_step (y m d : ℤ) (hm1 : 1 ≤ m) (hm2 : m ≤ 12)
    (hd1 : 1 ≤ d) (hd2 : d ≤ daysInMonth y m) :
    daysFromCivil y m d + 365 ≤ daysFromCivil (y + 1) m (min d (daysInMonth (y + 1) m)) := by
  simp only [daysFromCivil, daysInMonth, isLeapYear] at *
  split_ifs at * <;> omega

/-- Adding one calendar year to a unix timestamp advances it by at least
365 days of seconds; in particular timestamps strictly increase. -/
theorem addYearsUnix_ge (t : ℤ) : t + 365 * 86400 ≤ addYearsUnix t := by
  have hrt := daysFromCivil_civilFromDays (t / 86400)
  have hval := civilFromDays_valid (t / 86400)
  have hstep := daysFromCivil_step (civilFromDays (t / 86400)).1
    (civilFromDays (t / 86400)).2.1 (civilFromDays (t / 86400)).2.2
    hval.1 hval.2.1 hval.2.2.1 hval.2.2.2
  simp only [addYearsUnix]
  omega

/-- Adding one calendar year strictly increases a unix timestamp. -/
theorem addYearsUnix_gt (t : ℤ) : t < addYearsUnix t := by
  have := addYearsUnix_ge t
  omega

/-! ## JS numeric primitives

The widget's arithmetic is JS `number` arithmetic; we embed it over `ℚ`.
`Math.trunc` rounds toward zero, and the code only ever takes
`Math.floor (Math.sqrt x)`, the integer square root of `⌊x⌋` for `x ≥ 0`. -/

/-- `Math.trunc`: round toward zero. -/
def jsTrunc (q : ℚ) : ℤ := if q < 0 then -⌊-q⌋ else ⌊q⌋

/-- `Math.floor (Math.sqrt q)` for `q ≥ 0`: the integer square root of `⌊q⌋`. -/
def jsFloorSqrt (q : ℚ) : ℤ := Nat.sqrt ⌊q⌋.toNat

/-! ## Constants and issuance model (`EquilibriumWidget.tsx`) -/

def WEI_PER_ETH : ℚ := 1000000000000000000

def GWEI_PER_ETH : ℚ := 1000000000

def YEAR_IN_MINUTES : ℚ := 365.25 * 24 * 60

/-- `burnAsFraction`: yearly burn as a fraction of the non-staking supply. -/
def burnAsFraction (nonStakingSupply weiBurnPerMinute : ℚ) : ℚ :=
  ((weiBurnPerMinute / WEI_PER_ETH) * YEAR_IN_MINUTES) / nonStakingSupply

def MAX_EFFECTIVE_BALANCE : ℚ := 32 * GWEI_PER_ETH

def SECONDS_PER_SLOT : ℚ := 12

def SLOTS_PER_EPOCH : ℚ := 32

def EPOCHS_PER_DAY : ℚ := (24 * 60 * 60) / SLOTS_PER_EPOCH / SECONDS_PER_SLOT

def EPOCHS_PER_YEAR : ℚ := 365.25 * EPOCHS_PER_DAY

def BASE_REWARD_FACTOR : ℚ := 64

/-- `getIssuance`: yearly issuance (ETH) for a given staked supply (ETH). -/
def getIssuance (effective_balance_sum : ℚ) : ℚ :=
  let total_effective_balance := effective_balance_sum * GWEI_PER_ETH
  let active_validators := total_effective_balance / GWEI_PER_ETH / 32
  let max_balance_at_stake := active_validators * MAX_EFFECTIVE_BALANCE
  let max_issuance_per_epoch : ℚ :=
    (jsTrunc (BASE_REWARD_FACTOR * max_balance_at_stake /
      (jsFloorSqrt max_balance_at_stake : ℚ)) : ℚ)
  let max_issuance_per_year := max_issuance_per_epoch * EPOCHS_PER_YEAR
  max_issuance_per_year / GWEI_PER_ETH

/-- `getBurn`: the ETH burned in one year. -/
def getBurn (yearlyNonStakedBurnFraction nonStakedSupply : ℚ) : ℚ :=
  yearlyNonStakedBurnFraction * nonStakedSupply

/-! ## Supply-projection inputs (`SupplyInputs` of the API layer)

`supplyByDay` and `inBeaconValidatorsByDay` are `NonEmptyArray`s of
`{ t, v }` points; we carry nonemptiness in the structure. -/

structure DataPoint where
  t : ℤ
  v : ℚ

structure SupplyInputs where
  supplyByDay : List DataPoint
  inBeaconValidatorsByDay : List DataPoint
  supplyByDay_ne : supplyByDay ≠ []
  inBeaconValidatorsByDay_ne : inBeaconValidatorsByDay ≠ []

/-- `getStakingSupply`: `NEA.last` of the beacon-validators series. -/
def getStakingSupply (si : SupplyInputs) : ℚ :=
  (si.inBeaconValidatorsByDay.getLast si.inBeaconValidatorsByDay_ne).v

/-- `getNonStakingSupply`: last total supply minus last staked supply. -/
def getNonStakingSupply (si : SupplyInputs) : ℚ :=
  (si.supplyByDay.getLast si.supplyByDay_ne).v -
    (si.inBeaconValidatorsByDay.getLast si.inBeaconValidatorsByDay_ne).v

/-- One step of the `historicSupplyByMonth` reduce: keep a day's point only
when its (0-based) month differs from the month of the last kept point. -/
def monthStep (list : List (ℤ × ℚ)) (point : DataPoint) : List (ℤ × ℚ) :=
  match list.getLast? with
  | none => [(point.t, point.v)]
  | some last =>
    if getMonthUnix last.1 ≠ getMonthUnix point.t then list ++ [(point.t, point.v)]
    else list

/-- `historicSupplyByMonth`: the supply-by-day series collapsed to (at most)
one point per calendar month (by 0-based month number). -/
def historicSupplyByMonth (si : SupplyInputs) : List (ℤ × ℚ) :=
  si.supplyByDay.foldl monthStep []

/-- One loop iteration of the `equilibriums` memo: a state is the pair of the
current series point `supply` and the current `nonStaked` supply. -/
def eqStep (nonStakedSupplyBurnFraction staked issuance : ℚ)
    (st : (ℤ × ℚ) × ℚ) : (ℤ × ℚ) × ℚ :=
  let supply := st.1
  let nonStaked := st.2
  let nextYear := addYearsUnix supply.1
  let burn := getBurn nonStakedSupplyBurnFraction nonStaked
  let supply' := (nextYear, supply.2 + issuance - burn)
  (supply', supply'.2 - staked)

/-- The loop state after `n` iterations. -/
def eqState (nonStakedSupplyBurnFraction staked issuance : ℚ)
    (init : (ℤ × ℚ) × ℚ) : Nat → (ℤ × ℚ) × ℚ
  | 0 => init
  | n + 1 =>
    eqStep nonStakedSupplyBurnFraction staked issuance
      (eqState nonStakedSupplyBurnFraction staked issuance init n)

/-- The outputs of the `equilibriums` memo (the `supplyEquilibriumMap` is the
series in keyed form and is omitted). -/
structure EqOut where
  cashFlowsEquilibrium : ℚ
  nonStakedSupplyEquilibrium : ℚ
  supplyEquilibrium : ℚ
  supplyEquilibriumSeries : List (ℤ × ℚ)
  yearlyIssuanceFraction : ℚ

/-- The `equilibriums` computation: seed the series with the monthly historic
points, then run the yearly difference equation 200 times, appending each
new point. -/
def equilibriums (stakedSupply nonStakedSupplyBurnFraction : ℚ)
    (si : SupplyInputs) : EqOut :=
  let historic := historicSupplyByMonth si
  let supply0 := historic.getLastD (0, 0)
  let staked := stakedSupply
  let nonStaked0 := supply0.2 - staked
  let issuance := getIssuance staked
  let states := eqState nonStakedSupplyBurnFraction staked issuance (supply0, nonStaked0)
  let series := historic ++ (List.range 200).map (fun i => (states (i + 1)).1)
  let final := states 200
  { cashFlowsEquilibrium := getIssuance staked
    nonStakedSupplyEquilibrium := final.2
    supplyEquilibrium := final.1.2
    supplyEquilibriumSeries := series
    yearlyIssuanceFraction := getIssuance staked / staked }

/-- The undefined-guard of the `equilibriums` memo: the result is `undefined`
(`none`) exactly when one of the four checked inputs is. -/
def equilibriumsGuard (stakedSupply nonStakedSupplyBurnFraction : Option ℚ)
    (si : Option SupplyInputs) (historic : Option (List (ℤ × ℚ))) : Option EqOut :=
  match stakedSupply, nonStakedSupplyBurnFraction, si, historic with
  | some s, some f, some si', some _ => some (equilibriums s f si')
  | _, _, _, _ => none

/-- The memoized `historicSupplyByMonth`, `undefined` when the
supply-projection inputs are. -/
def historicOpt (si : Option SupplyInputs) : Option (List (ℤ × ℚ)) :=
  si.map historicSupplyByMonth

/-- What the graph area of `EquilibriumWidget` renders. -/
inductive EqRender
  | graph (series : List (ℤ × ℚ))
  | loadingText

/-- The graph area renders the series when `equilibriums` is defined and the
`loading...` placeholder otherwise. -/
def renderGraphArea (eq : Option EqOut) : EqRender :=
  match eq with
  | some e => .graph e.supplyEquilibriumSeries
  | none => .loadingText

/-! ## Alarm dialog (`TopBar`)

`showAlarmDialog` is a `Bool` starting `false`.  A document-level click
listener (`checkIfClickedOutside`) closes the dialog unless it is already
closed, the target is `null`, or the target lies inside the dialog or the
alarm button; the alarm button's own `onClick` (`handleClickAlarm`) toggles
the state.  A click is classified by where its target lies. -/

/-- `checkIfClickedOutside`, as a state transformer: the next value of
`showAlarmDialog` after the document click listener runs. -/
def checkIfClickedOutside (showAlarmDialog targetNull inDialog inButton : Bool) : Bool :=
  if !showAlarmDialog || targetNull || inDialog || inButton then showAlarmDialog
  else false

/-- `handleClickAlarm`: the alarm button toggles `showAlarmDialog`. -/
def handleClickAlarm (showAlarmDialog : Bool) : Bool := !showAlarmDialog

/-- The events the dialog state can see: a click on the alarm button, inside
the dialog, outside both, with a `null` target, or any non-click event. -/
inductive AlarmEvent
  | clickAlarmButton
  | clickInsideDialog
  | clickOutside
  | clickNullTarget
  | other

/-- The `showAlarmDialog` state machine.  On a button click both the document
listener (a no-op there, by its in-button guard) and the button handler run;
on other clicks only the document listener runs; non-click events do not
touch the state. -/
def alarmDialogStep (s : Bool) : AlarmEvent → Bool
  | .clickAlarmButton => handleClickAlarm (checkIfClickedOutside s false false true)
  | .clickInsideDialog => checkIfClickedOutside s false true false
  | .clickOutside => checkIfClickedOutside s false false false
  | .clickNullTarget => checkIfClickedOutside s true false false
  | .other => s

/-- `useState(false)`: the dialog starts closed. -/
def initialShowAlarmDialog : Bool := false

/-! ## Alarm preferences (`useLocalStorage`) -/

/-- Modelled from the spec: the browser-local persisted key/value store
backing `useLocalStorage` (module `use-local-storage`, whose source is not
part of the shown files) maps string keys to optionally-present boolean
values. -/
def LocalStore : Type := String → Option Bool

/-- Modelled from the spec: `useLocalStorage key defaultValue` reads the
stored value for `key` at mount, falling back to `defaultValue` when the key
is absent. -/
def useLocalStorageRead (store : LocalStore) (key : String) (defaultValue : Bool) : Bool :=
  (store key).getD defaultValue

/-- Modelled from the spec: toggling an alarm preference writes the new
boolean under its key. -/
def localStorageWrite (store : LocalStore) (key : String) (value : Bool) : LocalStore :=
  fun k => if k = key then some value else store k

/-- The storage key of the gas alarm preference. -/
def GAS_ALARM_KEY : String := "gas-alarm-enabled"

/-- The storage key of the ETH-price alarm preference. -/
def ETH_ALARM_KEY : String := "eth-alarm-enabled"

/-- Apply a sequence of toggle writes (key, new value) to the store. -/
def applyToggles (store : LocalStore) : List (String × Bool) → LocalStore
  | [] => store
  | (k, v) :: rest => applyToggles (localStorageWrite store k v) rest

/-- The last value written to `key` by a toggle sequence, if any. -/
def lastWriteOf : List (String × Bool) → String → Option Bool
  | [], _ => none
  | (k, v) :: rest, key =>
    match lastWriteOf rest key with
    | some w => some w
    | none => if k = key then some v else none

/-! ## Helper lemmas about the projection loop -/

/-- The loop states of `equilibriums s f si`, starting from the last monthly
historic point. -/
def eqStates (s f : ℚ) (si : SupplyInputs) : Nat → (ℤ × ℚ) × ℚ :=
  eqState f s (getIssuance s)
    ((historicSupplyByMonth si).getLastD (0, 0),
      ((historicSupplyByMonth si).getLastD (0, 0)).2 - s)

theorem equilibriums_series_eq (s f : ℚ) (si : SupplyInputs) :
    (equilibriums s f si).supplyEquilibriumSeries =
      historicSupplyByMonth si ++
        (List.range 200).map (fun i => (eqStates s f si (i + 1)).1) := rfl

theorem equilibriums_supply_eq (s f : ℚ) (si : SupplyInputs) :
    (equilibriums s f si).supplyEquilibrium = (eqStates s f si 200).1.2 := rfl

theorem equilibriums_nonStaked_eq (s f : ℚ) (si : SupplyInputs) :
    (equilibriums s f si).nonStakedSupplyEquilibrium = (eqStates s f si 200).2 := rfl

theorem eqStates_succ (s f : ℚ) (si : SupplyInputs) (n : Nat) :
    eqStates s f si (n + 1) = eqStep f s (getIssuance s) (eqStates s f si n) := rfl

theorem eqStep_spec (f s issuance : ℚ) (st : (ℤ × ℚ) × ℚ) :
    (eqStep f s issuance st).1.1 = addYearsUnix st.1.1 ∧
    (eqStep f s issuance st).1.2 = st.1.2 + issuance - f * st.2 ∧
    (eqStep f s issuance st).2 = (eqStep f s issuance st).1.2 - s :=
  ⟨rfl, rfl, rfl⟩

theorem eqStates_invariant (s f : ℚ) (si : SupplyInputs) :
    ∀ n, (eqStates s f si n).2 = (eqStates s f si n).1.2 - s
  | 0 => rfl
  | n + 1 => (eqStep_spec f s (getIssuance s) (eqStates s f si n)).2.2

theorem eqStates_nonStaked_succ (s f : ℚ) (si : SupplyInputs) (n : Nat) :
    (eqStates s f si (n + 1)).2 =
      (eqStates s f si n).2 + getIssuance s - getBurn f (eqStates s f si n).2 := by
  have hinv := eqStates_invariant s f si n
  have h := eqStep_spec f s (getIssuance s) (eqStates s f si n)
  rw [eqStates_succ, h.2.2, h.2.1, getBurn, hinv]
  ring

theorem range_map_getD {α : Type} (g : Nat → α) (d : α) (n j : Nat) (h : j < n) :
    ((List.range n).map g).getD j d = g j := by
  rw [List.getD_eq_getElem?_getD, List.getElem?_map, List.getElem?_range h]
  rfl

/-! ## Claim C7: the alarm-dialog state machine -/

/-- C7: the alarm dialog state is Boolean (exactly the two states closed and
open) and starts closed; a click on the alarm button toggles it; a click
outside the dialog closes it when open (and leaves it closed otherwise); a
click inside the open dialog leaves it open; and null-target clicks and
non-click events never change the state. -/
theorem alarm_dialog_state_machine :
    initialShowAlarmDialog = false ∧
    (∀ s, alarmDialogStep s .clickAlarmButton = !s) ∧
    alarmDialogStep true .clickOutside = false ∧
    alarmDialogStep false .clickOutside = false ∧
    alarmDialogStep true .clickInsideDialog = true ∧
    (∀ s, alarmDialogStep s .clickInsideDialog = s) ∧
    (∀ s, alarmDialogStep s .clickNullTarget = s) ∧
    (∀ s, alarmDialogStep s .other = s) := by
  refine ⟨rfl, ?_, rfl, rfl, rfl, ?_, ?_, ?_⟩ <;> exact fun s => by cases s <;> rfl

/-! ## Claim C8: undefined data renders the loading placeholder -/

/-- C8: the `equilibriums` memo is `undefined` exactly when one of its
checked inputs is `undefined`; the memoized monthly historic series is
`undefined` exactly when the supply-projection inputs are; and the graph area
renders the loading placeholder exactly when `equilibriums` is `undefined`. -/
theorem equilibriums_guard_spec (a b : Option ℚ) (c : Option SupplyInputs)
    (d : Option (List (ℤ × ℚ))) :
    (equilibriumsGuard a b c d = none ↔
      a = none ∨ b = none ∨ c = none ∨ d = none) ∧
    (historicOpt c = none ↔ c = none) ∧
    (renderGraphArea (equilibriumsGuard a b c d) = .loadingText ↔
      equilibriumsGuard a b c d = none) := by
  cases a <;> cases b <;> cases c <;> cases d <;>
    simp [equilibriumsGuard, historicOpt, renderGraphArea]

/-! ## Claim C6: the projection is a pure function of its inputs -/

/-- A concrete supply-projection input: one day of data, total supply
110,000,000 ETH of which 10,000,000 ETH is staked. -/
def exampleInputs : SupplyInputs where
  supplyByDay := [⟨0, 110000000⟩]
  inBeaconValidatorsByDay := [⟨0, 10000000⟩]
  supplyByDay_ne := by simp
  inBeaconValidatorsByDay_ne := by simp

/-- C6: `equilibriums` is deterministic: equal staked supply, burn fraction
and supply-projection inputs give equal outputs (series, equilibrium values
and issuance fraction alike); the result depends on nothing else. -/
theorem equilibriums_deterministic (s1 f1 : ℚ) (i1 : SupplyInputs)
    (s2 f2 : ℚ) (i2 : SupplyInputs)
    (hs : s1 = s2) (hf : f1 = f2) (hi : i1 = i2) :
    equilibriums s1 f1 i1 = equilibriums s2 f2 i2 := by
  subst hs
  subst hf
  subst hi
  rfl

/-- Witness for C6 at concrete inputs. -/
theorem equilibriums_deterministic_witness :
    equilibriums 10000000 (1 / 100) exampleInputs =
      equilibriums 10000000 (1 / 100) exampleInputs :=
  equilibriums_deterministic 10000000 (1 / 100) exampleInputs
    10000000 (1 / 100) exampleInputs rfl rfl rfl

/-! ## Claim C9: alarm-preference storage round trip -/

theorem applyToggles_read_of_no_write (seq : List (String × Bool)) (key : String)
    (h : lastWriteOf seq key = none) (store : LocalStore) (d : Bool) :
    useLocalStorageRead (applyToggles store seq) key d =
      useLocalStorageRead store key d := by
  induction seq generalizing store with
  | nil => rfl
  | cons p rest ih =>
    obtain ⟨k, v⟩ := p
    simp only [lastWriteOf] at h
    cases hr : lastWriteOf rest key with
    | some w => rw [hr] at h; exact absurd h (by simp)
    | none =>
      rw [hr] at h
      have hk : ¬ k = key := by
        intro hkk
        rw [if_pos hkk] at h
        exact absurd h (by simp)
      simp only [applyToggles]
      rw [ih hr]
      have hk' : ¬ key = k := fun hh => hk hh.symm
      simp [useLocalStorageRead, localStorageWrite, hk']

/-- C9: each alarm preference is a boolean under its own key, read at mount
with default `false` (an empty store reads `false`), and for every toggle
sequence the value read after a simulated reload is the last value written
to that key. -/
theorem alarm_preference_roundtrip (store : LocalStore) (seq : List (String × Bool))
    (key : String) (d v : Bool)
    (hkey : key = GAS_ALARM_KEY ∨ key = ETH_ALARM_KEY)
    (h : lastWriteOf seq key = some v) :
    GAS_ALARM_KEY ≠ ETH_ALARM_KEY ∧
    useLocalStorageRead (fun _ => none) key false = false ∧
    useLocalStorageRead (applyToggles store seq) key d = v := by
  refine ⟨by decide, rfl, ?_⟩
  clear hkey
  induction seq generalizing store with
  | nil => exact absurd h (by simp [lastWriteOf])
  | cons p rest ih =>
    obtain ⟨k, v'⟩ := p
    simp only [lastWriteOf] at h
    cases hr : lastWriteOf rest key with
    | some w =>
      rw [hr] at h
      have hw : w = v := by
        have h' := h
        simp at h'
        exact h'
      subst hw
      simp only [applyToggles]
      exact ih _ hr
    | none =>
      rw [hr] at h
      have hk : k = key := by
        by_contra hkk
        rw [if_neg hkk] at h
        exact absurd h (by simp)
      rw [if_pos hk] at h
      have hv : v' = v := by
        have h' := h
        simp at h'
        exact h'
      subst hv
      simp only [applyToggles]
      rw [applyToggles_read_of_no_write rest key hr]
      simp [useLocalStorageRead, localStorageWrite, hk]

/-- Witness for C9: toggle gas on, ETH on, gas off; after reload the gas
preference reads `false`. -/
theorem alarm_preference_roundtrip_witness :
    GAS_ALARM_KEY ≠ ETH_ALARM_KEY ∧
    useLocalStorageRead (fun _ => none) GAS_ALARM_KEY false = false ∧
    useLocalStorageRead
      (applyToggles (fun _ => none)
        [(GAS_ALARM_KEY, true), (ETH_ALARM_KEY, true), (GAS_ALARM_KEY, false)])
      GAS_ALARM_KEY false = false :=
  alarm_preference_roundtrip (fun _ => none)
    [(GAS_ALARM_KEY, true), (ETH_ALARM_KEY, true), (GAS_ALARM_KEY, false)]
    GAS_ALARM_KEY false false (Or.inl rfl) (by decide)

/-! ## Claim C2: exactly 200 yearly steps with the stated difference
equation -/

/-- C2: the projection appends exactly 200 yearly points; the `j`-th appended
point is the `j+1`-st iterate of the yearly step; and each step, with fixed
staked supply `s`, issuance `getIssuance s` and burn fraction `f`, sets the
new total supply to the previous total plus issuance minus `f` times the
current non-staked supply, and the new non-staked supply to the new total
minus `s`. -/
theorem equilibrium_200_yearly_steps (s f : ℚ) (si : SupplyInputs) :
    ((equilibriums s f si).supplyEquilibriumSeries.drop
        (historicSupplyByMonth si).length).length = 200 ∧
    (∀ j, j < 200 →
      ((equilibriums s f si).supplyEquilibriumSeries.drop
          (historicSupplyByMonth si).length).getD j (0, 0) =
        (eqStates s f si (j + 1)).1) ∧
    (∀ st : (ℤ × ℚ) × ℚ,
      (eqStep f s (getIssuance s) st).1.2 = st.1.2 + getIssuance s - f * st.2 ∧
      (eqStep f s (getIssuance s) st).2 = (eqStep f s (getIssuance s) st).1.2 - s) := by
  refine ⟨?_, ?_, fun st => ⟨rfl, rfl⟩⟩
  · rw [equilibriums_series_eq, List.drop_left]
    simp
  · intro j hj
    rw [equilibriums_series_eq, List.drop_left]
    exact range_map_getD _ _ _ _ hj

/-- Witness for C2 at concrete inputs and step 0. -/
theorem equilibrium_200_yearly_steps_witness :
    ((equilibriums 10000000 (1 / 100) exampleInputs).supplyEquilibriumSeries.drop
        (historicSupplyByMonth exampleInputs).length).getD 0 (0, 0) =
      (eqStates 10000000 (1 / 100) exampleInputs 1).1 :=
  (equilibrium_200_yearly_steps 10000000 (1 / 100) exampleInputs).2.1 0 (by norm_num)

/-! ## Claim C10: loop invariants and output equations -/

/-- C10: after every iteration the non-staked supply equals the total supply
minus the fixed staked supply; every iteration adds the once-computed
issuance `getIssuance s` (and subtracts the burn); and the returned outputs
satisfy the stated equations. -/
theorem equilibrium_loop_invariants (s f : ℚ) (si : SupplyInputs) :
    (∀ n, (eqStates s f si n).2 = (eqStates s f si n).1.2 - s) ∧
    (∀ n, (eqStates s f si (n + 1)).1.2 - (eqStates s f si n).1.2 +
        f * (eqStates s f si n).2 = getIssuance s) ∧
    (equilibriums s f si).nonStakedSupplyEquilibrium =
      (equilibriums s f si).supplyEquilibrium - s ∧
    (equilibriums s f si).cashFlowsEquilibrium = getIssuance s ∧
    (equilibriums s f si).yearlyIssuanceFraction = getIssuance s / s := by
  refine ⟨eqStates_invariant s f si, ?_, ?_, rfl, rfl⟩
  · intro n
    have h := eqStep_spec f s (getIssuance s) (eqStates s f si n)
    rw [eqStates_succ, h.2.1]
    ring
  · rw [equilibriums_nonStaked_eq, equilibriums_supply_eq]
    exact eqStates_invariant s f si 200

/-! ## Claim C1: shape of the output series -/

/-- A supply series with points in two different calendar months
(1970-01-01 and 1970-02-01). -/
def inputsTwoMonths : SupplyInputs where
  supplyByDay := [⟨0, 100⟩, ⟨2678400, 100⟩]
  inBeaconValidatorsByDay := [⟨0, 10⟩]
  supplyByDay_ne := by simp
  inBeaconValidatorsByDay_ne := by simp

/-- C1 counterexample: with a two-month input series the output series has
202 points, not 201. -/
theorem equilibrium_series_length_ne_201 :
    (equilibriums 0 0 inputsTwoMonths).supplyEquilibriumSeries.length ≠ 201 := by
  have hlen : (historicSupplyByMonth inputsTwoMonths).length = 2 := by decide
  rw [equilibriums_series_eq]
  simp only [List.length_append, List.length_map, List.length_range, hlen]
  omega

/-- C1 (amended): the output series has `(historicSupplyByMonth si).length +
200` points (201 exactly when the monthly historic series is a single
point); the first appended timestamp is one calendar year after the last
historic point; and the 200 appended timestamps are strictly increasing,
each exactly one calendar year after its predecessor. -/
theorem equilibrium_series_shape (s f : ℚ) (si : SupplyInputs) :
    (equilibriums s f si).supplyEquilibriumSeries.length =
      (historicSupplyByMonth si).length + 200 ∧
    ((historicSupplyByMonth si).length = 1 →
      (equilibriums s f si).supplyEquilibriumSeries.length = 201) ∧
    (((equilibriums s f si).supplyEquilibriumSeries.drop
        (historicSupplyByMonth si).length).getD 0 (0, 0)).1 =
      addYearsUnix ((historicSupplyByMonth si).getLastD (0, 0)).1 ∧
    (∀ j, j + 1 < 200 →
      (((equilibriums s f si).supplyEquilibriumSeries.drop
          (historicSupplyByMonth si).length).getD (j + 1) (0, 0)).1 =
        addYearsUnix (((equilibriums s f si).supplyEquilibriumSeries.drop
          (historicSupplyByMonth si).length).getD j (0, 0)).1 ∧
      (((equilibriums s f si).supplyEquilibriumSeries.drop
          (historicSupplyByMonth si).length).getD j (0, 0)).1 <
        (((equilibriums s f si).supplyEquilibriumSeries.drop
          (historicSupplyByMonth si).length).getD (j + 1) (0, 0)).1) := by
  have hser : ∀ j, j < 200 →
      ((equilibriums s f si).supplyEquilibriumSeries.drop
          (historicSupplyByMonth si).length).getD j (0, 0) =
        (eqStates s f si (j + 1)).1 := by
    intro j hj
    rw [equilibriums_series_eq, List.drop_left]
    exact range_map_getD _ _ _ _ hj
  have hlen : (equilibriums s f si).supplyEquilibriumSeries.length =
      (historicSupplyByMonth si).length + 200 := by
    rw [equilibriums_series_eq]
    simp
  refine ⟨hlen, ?_, ?_, ?_⟩
  · intro h1
    rw [hlen, h1]
  · rw [hser 0 (by norm_num)]
    rfl
  · intro j hj
    rw [hser (j + 1) hj, hser j (by omega)]
    exact ⟨rfl, addYearsUnix_gt _⟩

/-- Witness for C1 (amended) at concrete inputs and step 0. -/
theorem equilibrium_series_shape_witness :
    (equilibriums 10000000 (1 / 100) exampleInputs).supplyEquilibriumSeries.length = 201 ∧
    ((((equilibriums 10000000 (1 / 100) exampleInputs).supplyEquilibriumSeries.drop
        (historicSupplyByMonth exampleInputs).length).getD 1 (0, 0)).1 =
      addYearsUnix (((equilibriums 10000000 (1 / 100) exampleInputs).supplyEquilibriumSeries.drop
        (historicSupplyByMonth exampleInputs).length).getD 0 (0, 0)).1 ∧
    (((equilibriums 10000000 (1 / 100) exampleInputs).supplyEquilibriumSeries.drop
        (historicSupplyByMonth exampleInputs).length).getD 0 (0, 0)).1 <
      (((equilibriums 10000000 (1 / 100) exampleInputs).supplyEquilibriumSeries.drop
        (historicSupplyByMonth exampleInputs).length).getD 1 (0, 0)).1) :=
  ⟨(equilibrium_series_shape 10000000 (1 / 100) exampleInputs).2.1 (by decide),
    (equilibrium_series_shape 10000000 (1 / 100) exampleInputs).2.2.2 0 (by norm_num)⟩

/-! ## Issuance closed form and concrete evaluations -/

theorem jsTrunc_of_nonneg (q : ℚ) (h : 0 ≤ q) : jsTrunc q = ⌊q⌋ :=
  if_neg (not_lt.2 h)

/-- In `getIssuance` the balance at stake simplifies to the staked supply in
Gwei, giving the closed form of the issuance. -/
theorem getIssuance_closed (s : ℚ) :
    getIssuance s =
      (jsTrunc (BASE_REWARD_FACTOR * (s * GWEI_PER_ETH) /
        (jsFloorSqrt (s * GWEI_PER_ETH) : ℚ)) : ℚ) * EPOCHS_PER_YEAR / GWEI_PER_ETH := by
  have hmbs : s * GWEI_PER_ETH / GWEI_PER_ETH / 32 * MAX_EFFECTIVE_BALANCE =
      s * GWEI_PER_ETH := by
    rw [MAX_EFFECTIVE_BALANCE, GWEI_PER_ETH]
    field_simp
    ring
  simp only [getIssuance, hmbs]

theorem natSqrt_1e16 : Nat.sqrt 10000000000000000 = 100000000 := by
  have h1 : 100000000 ≤ Nat.sqrt 10000000000000000 := Nat.le_sqrt.mpr (by norm_num)
  have h2 : Nat.sqrt 10000000000000000 < 100000001 := Nat.sqrt_lt'.mpr (by norm_num)
  omega

theorem natSqrt_1e16_eps : Nat.sqrt 10000000000100000 = 100000000 := by
  have h1 : 100000000 ≤ Nat.sqrt 10000000000100000 := Nat.le_sqrt.mpr (by norm_num)
  have h2 : Nat.sqrt 10000000000100000 < 100000001 := Nat.sqrt_lt'.mpr (by norm_num)
  omega

theorem jsFloorSqrt_1e7 : jsFloorSqrt ((10000000 : ℚ) * GWEI_PER_ETH) = 100000000 := by
  have hfl : (⌊(10000000 : ℚ) * GWEI_PER_ETH⌋ : ℤ) = 10000000000000000 := by
    rw [GWEI_PER_ETH]
    norm_num
  rw [jsFloorSqrt, hfl]
  rw [show Int.toNat (10000000000000000 : ℤ) = 10000000000000000 from rfl]
  rw [natSqrt_1e16]
  norm_num

theorem jsFloorSqrt_1e7_eps :
    jsFloorSqrt ((10000000 + 1 / 10000 : ℚ) * GWEI_PER_ETH) = 100000000 := by
  have hfl : (⌊(10000000 + 1 / 10000 : ℚ) * GWEI_PER_ETH⌋ : ℤ) = 10000000000100000 := by
    rw [GWEI_PER_ETH]
    norm_num
  rw [jsFloorSqrt, hfl]
  rw [show Int.toNat (10000000000100000 : ℤ) = 10000000000100000 from rfl]
  rw [natSqrt_1e16_eps]
  norm_num

theorem getIssuance_1e7 : getIssuance 10000000 = 525960 := by
  rw [getIssuance_closed, jsFloorSqrt_1e7]
  have harg : BASE_REWARD_FACTOR * ((10000000 : ℚ) * GWEI_PER_ETH) /
      (((100000000 : ℤ) : ℚ)) = 6400000000 := by
    rw [BASE_REWARD_FACTOR, GWEI_PER_ETH]
    norm_num
  rw [harg]
  have htr : jsTrunc (6400000000 : ℚ) = 6400000000 := by
    rw [jsTrunc_of_nonneg _ (by norm_num)]
    norm_num
  rw [htr, EPOCHS_PER_YEAR, EPOCHS_PER_DAY, SLOTS_PER_EPOCH, SECONDS_PER_SLOT,
    GWEI_PER_ETH]
  norm_num

theorem getIssuance_1e7_eps : getIssuance (10000000 + 1 / 10000) = 525960 := by
  rw [getIssuance_closed, jsFloorSqrt_1e7_eps]
  have harg : BASE_REWARD_FACTOR * ((10000000 + 1 / 10000 : ℚ) * GWEI_PER_ETH) /
      (((100000000 : ℤ) : ℚ)) = 6400000000 + 8 / 125 := by
    rw [BASE_REWARD_FACTOR, GWEI_PER_ETH]
    norm_num
  rw [harg]
  have htr : jsTrunc (6400000000 + 8 / 125 : ℚ) = 6400000000 := by
    rw [jsTrunc_of_nonneg _ (by norm_num)]
    rw [Int.floor_eq_iff]
    norm_num
  rw [htr, EPOCHS_PER_YEAR, EPOCHS_PER_DAY, SLOTS_PER_EPOCH, SECONDS_PER_SLOT,
    GWEI_PER_ETH]
  norm_num

/-! ## Claim C3: the issuance formula matches the spec's closed form -/

/-- The spec's validator-reward approximation, written from the spec's words:
per-epoch issuance is `trunc(BASE_REWARD_FACTOR × balance_at_stake /
floor(sqrt(balance_at_stake)))` Gwei with `balance_at_stake` the staked
supply in Gwei, and yearly issuance is that times the epochs per year,
converted back to ETH. -/
def getIssuanceSpec (stakedSupply : ℚ) : ℚ :=
  let balance_at_stake := stakedSupply * GWEI_PER_ETH
  let issuance_per_epoch : ℚ :=
    (jsTrunc (BASE_REWARD_FACTOR * balance_at_stake /
      (jsFloorSqrt balance_at_stake : ℚ)) : ℚ)
  issuance_per_epoch * EPOCHS_PER_YEAR / GWEI_PER_ETH

/-- C3: `getIssuance` computes exactly the spec's closed-form validator-reward
approximation, and the epochs-per-year factor is `365.25 × (86400 / 32 / 12)`. -/
theorem getIssuance_matches_validator_reward_formula (s : ℚ) :
    getIssuance s = getIssuanceSpec s ∧
    EPOCHS_PER_YEAR = 365.25 * ((24 * 60 * 60) / 32 / 12) := by
  exact ⟨getIssuance_closed s, rfl⟩

/-! ## Claim C4: direction of the non-staked supply per step -/

theorem historic_example : historicSupplyByMonth exampleInputs = [(0, 110000000)] := rfl

/-- C4 (amended): in every yearly step the non-staked supply strictly
decreases iff the year's burn exceeds the issuance, strictly increases iff
the burn is below the issuance, and is unchanged when burn and issuance are
exactly equal. -/
theorem nonstaked_step_trichotomy (s f : ℚ) (si : SupplyInputs) (j : ℕ) :
    (getIssuance s < getBurn f (eqStates s f si j).2 →
      (eqStates s f si (j + 1)).2 < (eqStates s f si j).2) ∧
    (getBurn f (eqStates s f si j).2 < getIssuance s →
      (eqStates s f si j).2 < (eqStates s f si (j + 1)).2) ∧
    (getBurn f (eqStates s f si j).2 = getIssuance s →
      (eqStates s f si (j + 1)).2 = (eqStates s f si j).2) := by
  have h := eqStates_nonStaked_succ s f si j
  refine ⟨fun hlt => ?_, fun hlt => ?_, fun heq => ?_⟩ <;> rw [h] <;> linarith

/-- Witness for C4 at the spec's example (staked 10,000,000 ETH, non-staked
100,000,000 ETH, burn fraction 0.01): the burn exceeds the issuance, so the
non-staked supply strictly decreases in the first step. -/
theorem nonstaked_step_trichotomy_witness :
    (eqStates 10000000 (1 / 100) exampleInputs 1).2 <
      (eqStates 10000000 (1 / 100) exampleInputs 0).2 := by
  refine (nonstaked_step_trichotomy 10000000 (1 / 100) exampleInputs 0).1 ?_
  have h0 : (eqStates 10000000 (1 / 100) exampleInputs 0).2 = 100000000 := by
    show ((historicSupplyByMonth exampleInputs).getLastD (0, 0)).2 - 10000000 = 100000000
    rw [historic_example]
    norm_num
  rw [h0, getBurn, getIssuance_1e7]
  norm_num

/-- C4 counterexample: with burn fraction `525960 / 100000000` the yearly
burn equals the issuance exactly, so burn does not exceed issuance and yet
the non-staked supply does not increase either — it stays constant. -/
theorem nonstaked_step_not_increasing :
    ¬ getIssuance 10000000 <
        getBurn (525960 / 100000000)
          (eqStates 10000000 (525960 / 100000000) exampleInputs 0).2 ∧
    ¬ (eqStates 10000000 (525960 / 100000000) exampleInputs 0).2 <
        (eqStates 10000000 (525960 / 100000000) exampleInputs 1).2 := by
  have h0 : (eqStates 10000000 (525960 / 100000000) exampleInputs 0).2 = 100000000 := by
    show ((historicSupplyByMonth exampleInputs).getLastD (0, 0)).2 - 10000000 = 100000000
    rw [historic_example]
    norm_num
  have h1 := eqStates_nonStaked_succ 10000000 (525960 / 100000000) exampleInputs 0
  constructor
  · rw [h0, getBurn, getIssuance_1e7]
    norm_num
  · rw [h1, h0, getBurn, getIssuance_1e7]
    norm_num

/-! ## Claim C5: monotonicity of the issuance in the staked supply -/

/-- Comparison of the truncated per-epoch issuance at two balances whose
integer square roots are at least 3 apart. -/
theorem issuance_epoch_lt (B1 B2 : ℚ)
    (h1 : 1 ≤ Nat.sqrt ⌊B1⌋.toNat)
    (hgap : Nat.sqrt ⌊B1⌋.toNat + 3 ≤ Nat.sqrt ⌊B2⌋.toNat) :
    jsTrunc (BASE_REWARD_FACTOR * B1 / ((jsFloorSqrt B1 : ℤ) : ℚ)) <
      jsTrunc (BASE_REWARD_FACTOR * B2 / ((jsFloorSqrt B2 : ℤ) : ℚ)) := by
  rw [BASE_REWARD_FACTOR, jsFloorSqrt, jsFloorSqrt]
  set n1 : ℕ := ⌊B1⌋.toNat with hn1
  set n2 : ℕ := ⌊B2⌋.toNat with hn2
  set k1 : ℕ := Nat.sqrt n1 with hk1
  set k2 : ℕ := Nat.sqrt n2 with hk2
  have hn1pos : 1 ≤ n1 := Nat.sqrt_pos.mp (by omega)
  have hn2pos : 1 ≤ n2 := Nat.sqrt_pos.mp (by omega)
  have hfl1 : (⌊B1⌋ : ℤ) = (n1 : ℤ) := by
    have hnn : 0 ≤ ⌊B1⌋ := by
      by_contra hneg
      push_neg at hneg
      have h0 : ⌊B1⌋.toNat = 0 := Int.toNat_of_nonpos (le_of_lt hneg)
      omega
    exact (Int.toNat_of_nonneg hnn).symm
  have hfl2 : (⌊B2⌋ : ℤ) = (n2 : ℤ) := by
    have hnn : 0 ≤ ⌊B2⌋ := by
      by_contra hneg
      push_neg at hneg
      have h0 : ⌊B2⌋.toNat = 0 := Int.toNat_of_nonpos (le_of_lt hneg)
      omega
    exact (Int.toNat_of_nonneg hnn).symm
  have hB1lb : (1 : ℚ) ≤ B1 := by
    have hfloor := Int.floor_le B1
    rw [hfl1] at hfloor
    have hcast : ((n1 : ℤ) : ℚ) = (n1 : ℚ) := by push_cast; ring
    rw [hcast] at hfloor
    have hone : (1 : ℚ) ≤ (n1 : ℚ) := by exact_mod_cast hn1pos
    linarith
  have hB2lb : ((k2 * k2 : ℕ) : ℚ) ≤ B2 := by
    have hs := Nat.sqrt_le n2
    have hfloor := Int.floor_le B2
    rw [hfl2] at hfloor
    have hcast : ((n2 : ℤ) : ℚ) = (n2 : ℚ) := by push_cast; ring
    rw [hcast] at hfloor
    have hsq : ((k2 * k2 : ℕ) : ℚ) ≤ (n2 : ℚ) := by exact_mod_cast hs
    linarith
  have hB1ub : B1 < (((k1 + 1) * (k1 + 1) : ℕ) : ℚ) := by
    have hs := Nat.lt_succ_sqrt n1
    have hfloor := Int.lt_floor_add_one B1
    rw [hfl1] at hfloor
    have hcast : ((n1 : ℤ) : ℚ) = (n1 : ℚ) := by push_cast; ring
    rw [hcast] at hfloor
    have hsq : (n1 : ℚ) + 1 ≤ (((k1 + 1) * (k1 + 1) : ℕ) : ℚ) := by
      exact_mod_cast hs
    linarith
  have hk1pos : (0 : ℚ) < ((k1 : ℕ) : ℚ) := by
    exact_mod_cast Nat.lt_of_lt_of_le Nat.zero_lt_one h1
  have hk2pos : (0 : ℚ) < ((k2 : ℕ) : ℚ) := by
    have : 0 < k2 := by omega
    exact_mod_cast this
  have hcast1 : (((k1 : ℕ) : ℤ) : ℚ) = ((k1 : ℕ) : ℚ) := by push_cast; ring
  have hcast2 : (((k2 : ℕ) : ℤ) : ℚ) = ((k2 : ℕ) : ℚ) := by push_cast; ring
  rw [hcast1, hcast2]
  have harg1 : (0 : ℚ) ≤ 64 * B1 / (k1 : ℚ) :=
    div_nonneg (by linarith) (le_of_lt hk1pos)
  have harg2 : (0 : ℚ) ≤ 64 * B2 / (k2 : ℚ) := by
    have hB2nn : (0 : ℚ) ≤ B2 := le_trans (by positivity) hB2lb
    exact div_nonneg (by linarith) (le_of_lt hk2pos)
  rw [jsTrunc_of_nonneg _ harg1, jsTrunc_of_nonneg _ harg2]
  have hq1 : ⌊64 * B1 / (k1 : ℚ)⌋ < 64 * (k1 : ℤ) + 192 := by
    rw [Int.floor_lt]
    have hlt : 64 * B1 / (k1 : ℚ) < 64 * (((k1 + 1) * (k1 + 1) : ℕ) : ℚ) / (k1 : ℚ) := by
      gcongr
    have hk1one : (1 : ℚ) ≤ (k1 : ℚ) := by exact_mod_cast h1
    have hle : 64 * (((k1 + 1) * (k1 + 1) : ℕ) : ℚ) / (k1 : ℚ) ≤
        ((64 * (k1 : ℤ) + 192 : ℤ) : ℚ) := by
      rw [div_le_iff₀ hk1pos]
      push_cast
      nlinarith
    linarith
  have hq2 : (64 * (k2 : ℤ) : ℤ) ≤ ⌊64 * B2 / (k2 : ℚ)⌋ := by
    rw [Int.le_floor]
    rw [le_div_iff₀ hk2pos]
    push_cast
    push_cast at hB2lb
    nlinarith
  have hgap' : (64 * (k1 : ℤ) + 192 : ℤ) ≤ 64 * (k2 : ℤ) := by omega
  omega

/-- C5 counterexample: the issuance is not strictly increasing: increasing
the staked supply by 1/10000 ETH at 10,000,000 ETH leaves the (truncated)
issuance unchanged. -/
theorem getIssuance_plateau :
    (10000000 : ℚ) < 10000000 + 1 / 10000 ∧
    getIssuance 10000000 = getIssuance (10000000 + 1 / 10000) := by
  constructor
  · norm_num
  · rw [getIssuance_1e7, getIssuance_1e7_eps]

/-- C5 (amended): `getIssuance` is strictly increasing from `s1` to `s2`
whenever the integer square root of the Gwei balance at stake grows by at
least 3 (and is at least 1 at `s1`); at finer granularity the Gwei truncation
makes the function locally non-monotone. -/
theorem getIssuance_strictMono_of_sqrt_gap (s1 s2 : ℚ)
    (h1 : 1 ≤ jsFloorSqrt (s1 * GWEI_PER_ETH))
    (hgap : jsFloorSqrt (s1 * GWEI_PER_ETH) + 3 ≤ jsFloorSqrt (s2 * GWEI_PER_ETH)) :
    getIssuance s1 < getIssuance s2 := by
  rw [getIssuance_closed, getIssuance_closed]
  have e1 : jsFloorSqrt (s1 * GWEI_PER_ETH) =
      ((Nat.sqrt ⌊s1 * GWEI_PER_ETH⌋.toNat : ℕ) : ℤ) := rfl
  have e2 : jsFloorSqrt (s2 * GWEI_PER_ETH) =
      ((Nat.sqrt ⌊s2 * GWEI_PER_ETH⌋.toNat : ℕ) : ℤ) := rfl
  have h1' : 1 ≤ Nat.sqrt ⌊s1 * GWEI_PER_ETH⌋.toNat := by
    rw [e1] at h1
    exact_mod_cast h1
  have hgap' : Nat.sqrt ⌊s1 * GWEI_PER_ETH⌋.toNat + 3 ≤
      Nat.sqrt ⌊s2 * GWEI_PER_ETH⌋.toNat := by
    rw [e1, e2] at hgap
    exact_mod_cast hgap
  have hlt := issuance_epoch_lt (s1 * GWEI_PER_ETH) (s2 * GWEI_PER_ETH) h1' hgap'
  have hc : (0 : ℚ) < EPOCHS_PER_YEAR / GWEI_PER_ETH := by
    rw [EPOCHS_PER_YEAR, EPOCHS_PER_DAY, SLOTS_PER_EPOCH, SECONDS_PER_SLOT,
      GWEI_PER_ETH]
    norm_num
  have hql : ((jsTrunc (BASE_REWARD_FACTOR * (s1 * GWEI_PER_ETH) /
        ((jsFloorSqrt (s1 * GWEI_PER_ETH) : ℤ) : ℚ)) : ℤ) : ℚ) <
      ((jsTrunc (BASE_REWARD_FACTOR * (s2 * GWEI_PER_ETH) /
        ((jsFloorSqrt (s2 * GWEI_PER_ETH) : ℤ) : ℚ)) : ℤ) : ℚ) := by
    exact_mod_cast hlt
  calc (jsTrunc (BASE_REWARD_FACTOR * (s1 * GWEI_PER_ETH) /
        ((jsFloorSqrt (s1 * GWEI_PER_ETH) : ℤ) : ℚ)) : ℚ) * EPOCHS_PER_YEAR / GWEI_PER_ETH
      = (jsTrunc (BASE_REWARD_FACTOR * (s1 * GWEI_PER_ETH) /
        ((jsFloorSqrt (s1 * GWEI_PER_ETH) : ℤ) : ℚ)) : ℚ) * (EPOCHS_PER_YEAR / GWEI_PER_ETH) := by
        ring
    _ < (jsTrunc (BASE_REWARD_FACTOR * (s2 * GWEI_PER_ETH) /
        ((jsFloorSqrt (s2 * GWEI_PER_ETH) : ℤ) : ℚ)) : ℚ) * (EPOCHS_PER_YEAR / GWEI_PER_ETH) :=
        mul_lt_mul_of_pos_right hql hc
    _ = (jsTrunc (BASE_REWARD_FACTOR * (s2 * GWEI_PER_ETH) /
        ((jsFloorSqrt (s2 * GWEI_PER_ETH) : ℤ) : ℚ)) : ℚ) * EPOCHS_PER_YEAR / GWEI_PER_ETH := by
        ring

theorem natSqrt_1e9 : Nat.sqrt 1000000000 = 31622 := by
  have h1 : 31622 ≤ Nat.sqrt 1000000000 := Nat.le_sqrt.mpr (by norm_num)
  have h2 : Nat.sqrt 1000000000 < 31623 := Nat.sqrt_lt'.mpr (by norm_num)
  omega

theorem natSqrt_4e9 : Nat.sqrt 4000000000 = 63245 := by
  have h1 : 63245 ≤ Nat.sqrt 4000000000 := Nat.le_sqrt.mpr (by norm_num)
  have h2 : Nat.sqrt 4000000000 < 63246 := Nat.sqrt_lt'.mpr (by norm_num)
  omega

theorem jsFloorSqrt_one_eth : jsFloorSqrt ((1 : ℚ) * GWEI_PER_ETH) = 31622 := by
  have hfl : (⌊(1 : ℚ) * GWEI_PER_ETH⌋ : ℤ) = 1000000000 := by
    rw [GWEI_PER_ETH]
    norm_num
  rw [jsFloorSqrt, hfl]
  rw [show Int.toNat (1000000000 : ℤ) = 1000000000 from rfl]
  rw [natSqrt_1e9]
  norm_num

theorem jsFloorSqrt_four_eth : jsFloorSqrt ((4 : ℚ) * GWEI_PER_ETH) = 63245 := by
  have hfl : (⌊(4 : ℚ) * GWEI_PER_ETH⌋ : ℤ) = 4000000000 := by
    rw [GWEI_PER_ETH]
    norm_num
  rw [jsFloorSqrt, hfl]
  rw [show Int.toNat (4000000000 : ℤ) = 4000000000 from rfl]
  rw [natSqrt_4e9]
  norm_num

/-- Witness for C5 (amended): from 1 ETH staked to 4 ETH staked the integer
square root of the Gwei balance grows far more than 3, so the issuance
strictly increases. -/
theorem getIssuance_strictMono_of_sqrt_gap_witness :
    getIssuance 1 < getIssuance 4 :=
  getIssuance_strictMono_of_sqrt_gap 1 4
    (by rw [jsFloorSqrt_one_eth]; norm_num)
    (by rw [jsFloorSqrt_one_eth, jsFloorSqrt_four_eth]; norm_num)
